import Mathlib

/-
Verification development for the mtproto client core (mtproto.go and its
decode-buffer companion file).  The Go source is shallowly embedded:

* TL values are a tagged sum covering every meta-constructor the dispatcher
  and decoder branch on, plus an opaque constructor for everything else.
* The dispatcher state (MState) carries the session record, the pending
  table msgsByID, the internal send queue, the response-channel heap, the
  log of session saves, the warning counter and the event log.  Go channels
  used as one-shot response slots are represented by channel ids into the
  heap; the internal send queue is a list that enqueues by appending.
* Machine integers are modelled as Int (i64 and i32 values) and Nat
  (bytes, u32); overflow is made explicit with mod 2 pow w where the code
  depends on it.
-/

set_option autoImplicit false

mutual

/-- Meta-constructor values recognised by the dispatcher and the decoder.
Field layouts follow the TL schema objects used in mtproto.go; nullObj
stands for a nil Go interface value.  Container items carry
msgId, seqNo, size and the payload, as in TL_MT_message. -/
inductive TL : Type where
  | msg_container (items : TLItems)
  | bad_server_salt (badMsgID badMsgSeqNo errorCode newServerSalt : Int)
  | bad_msg_notification (badMsgID badMsgSeqNo errorCode : Int)
  | msgs_state_info (reqMsgID : Int) (info : List Nat)
  | new_session_created (firstMsgID uniqueID serverSalt : Int)
  | ping (pingID : Int)
  | pong (msgID pingID : Int)
  | msgs_ack (msgIds : List Int)
  | rpc_result (reqMsgID : Int) (obj : TL)
  | nullObj
  | other (constructor : Nat)
  deriving DecidableEq

/-- List of TL_MT_message items inside a msg_container. -/
inductive TLItems : Type where
  | nil
  | cons (msgID : Int) (seqNo : Int) (size : Int) (data : TL) (rest : TLItems)
  deriving DecidableEq

end

/-- packetToSend from mtproto.go: message id, sequence number, payload,
optional response channel (a channel id; none models a nil channel) and
the needAck flag. -/
structure packetToSend where
  msgID : Int := 0
  seqNo : Int := 0
  msg : TL
  resp : Option Nat
  needAck : Bool := false
deriving DecidableEq

/-- newPacket from mtproto.go. -/
def newPacket (msg : TL) (resp : Option Nat) : packetToSend :=
  { msg := msg, resp := resp }

/-- A one-shot response channel: values sent so far and whether close was
called. -/
structure RespChan where
  sent : List TL
  closed : Bool
deriving DecidableEq

/-- SessionInfo from mtproto.go.  The address is kept as its byte sequence
(Go strings are immutable byte slices). -/
structure SessionInfo where
  dcID : Int
  authKey : List Nat
  authKeyHash : List Nat
  serverSalt : Int
  addr : List Nat
  sessionId : Int
deriving DecidableEq

/-- TL_dcOption fields used by DCAddr. -/
structure TLDcOption where
  id : Int
  ipv6 : Bool
  ipAddress : List Nat
  port : Int
deriving DecidableEq

/-- The MTProto dispatcher state: session record, log of sessions handed to
the injected store by SaveSessionLogged, the pending table msgsByID, the
internal send queue, the heap of response channels, the warning counter,
the log of events handed to handleEvent, whether a handler is set, the
encryptionReady flag, and the DC options table. -/
structure MState where
  session : SessionInfo
  savedSessions : List SessionInfo
  msgsByID : List (Int × packetToSend)
  sendQueue : List packetToSend
  channels : List (Nat × RespChan)
  warnings : Nat
  events : List TL
  hasHandler : Bool
  encryptionReady : Bool
  dcOptions : List TLDcOption
deriving DecidableEq

/-- First-match association-list lookup (Go map read). -/
def alLookup {α β : Type} [DecidableEq α] (k : α) : List (α × β) → Option β
  | [] => none
  | (k₁, v) :: rest => if k₁ = k then some v else alLookup k rest

/-- Remove the first entry with the given key (Go map delete). -/
def alErase {α β : Type} [DecidableEq α] (k : α) : List (α × β) → List (α × β)
  | [] => []
  | (k₁, v) :: rest => if k₁ = k then rest else (k₁, v) :: alErase k rest

/-- Update the first entry with the given key in place. -/
def alUpdate {α β : Type} [DecidableEq α] (k : α) (f : β → β) : List (α × β) → List (α × β)
  | [] => []
  | (k₁, v) :: rest => if k₁ = k then (k₁, f v) :: rest else (k₁, v) :: alUpdate k f rest

/-- Sending a response on a channel and closing it, as in clearPacketData. -/
def sendAndClose (cid : Nat) (response : TL) (chans : List (Nat × RespChan)) :
    List (Nat × RespChan) :=
  alUpdate cid (fun c => { sent := c.sent ++ [response], closed := true }) chans

/-- clearPacketData from mtproto.go: look up the pending packet; when its
response slot is nil log a warning, otherwise send the response and close
the slot; in either case delete the table entry.  A missing msg id changes
nothing. -/
def clearPacketData (msgID : Int) (response : TL) (st : MState) : MState :=
  match alLookup msgID st.msgsByID with
  | none => st
  | some packet =>
    let st₁ :=
      match packet.resp with
      | none => { st with warnings := st.warnings + 1 }
      | some cid => { st with channels := sendAndClose cid response st.channels }
    { st₁ with msgsByID := alErase msgID st₁.msgsByID }

/-- The ack packet built at the end of process for odd sequence numbers. -/
def mkAckPacket (msgID : Int) : packetToSend :=
  newPacket (TL.msgs_ack [msgID]) none

/-- One step of the msgs_ack loop in process: clear the needAck flag of the
acked packet and delete it when it has no response waiter. -/
def ackOne (tbl : List (Int × packetToSend)) (id : Int) : List (Int × packetToSend) :=
  match alLookup id tbl with
  | none => tbl
  | some p =>
    let tbl₁ := alUpdate id (fun q => { q with needAck := false }) tbl
    if p.resp = none then alErase id tbl₁ else tbl₁

/-- The msgs_ack loop of process over all acked ids. -/
def processAcks (ids : List Int) (tbl : List (Int × packetToSend)) :
    List (Int × packetToSend) :=
  ids.foldl ackOne tbl

mutual

/-- process from mtproto.go: branch on the inbound TL value, then enqueue a
msgs_ack for the inbound msg id when the inbound seq no is odd.  The
bad_server_salt branch inlines SaveSessionLogged and resendPendingPackets
(pop every pending packet, push each onto the internal queue). -/
def process (msgId seqNo : Int) (dataTL : TL) (mayPassToHandler : Bool) (st : MState) :
    MState :=
  let st₁ :=
    match dataTL with
    | .msg_container items => processItems items st
    | .bad_server_salt _ _ _ newSalt =>
      let stA := { st with session := { st.session with serverSalt := newSalt } }
      let stB := { stA with savedSessions := stA.savedSessions ++ [stA.session] }
      { stB with
        msgsByID := [],
        sendQueue := stB.sendQueue ++ stB.msgsByID.map Prod.snd }
    | .bad_msg_notification badId _ _ => clearPacketData badId dataTL st
    | .msgs_state_info reqId _ => clearPacketData reqId dataTL st
    | .new_session_created _ _ salt =>
      let stA := { st with session := { st.session with serverSalt := salt } }
      { stA with savedSessions := stA.savedSessions ++ [stA.session] }
    | .ping pid =>
      { st with sendQueue := st.sendQueue ++ [newPacket (TL.pong msgId pid) none] }
    | .pong _ _ => st
    | .msgs_ack ids => { st with msgsByID := processAcks ids st.msgsByID }
    | .rpc_result reqId obj =>
      let stA := process msgId 0 obj false st
      clearPacketData reqId obj stA
    | _ =>
      if mayPassToHandler && st.hasHandler then { st with events := st.events ++ [dataTL] }
      else st
  if seqNo % 2 = 1 then { st₁ with sendQueue := st₁.sendQueue ++ [mkAckPacket msgId] }
  else st₁

/-- The msg_container loop of process: each item is processed with its own
msg id and seq no, and mayPassToHandler true. -/
def processItems (items : TLItems) (st : MState) : MState :=
  match items with
  | .nil => st
  | .cons mid sq _ d rest => processItems rest (process mid sq d true st)

end

mutual

/-- Formalisation of the ack policy stated by the spec: after all branches,
a message whose seq no is odd is acknowledged once, after all nested
processing; container items are recursed with their own msg id and seq no;
the inner object of an rpc_result is processed with seq no 0 and therefore
never produces an ack of its own; even seq no produces no ack.  Returns
the acked msg ids in emission order. -/
def specAckIds (msgId seqNo : Int) (d : TL) : List Int :=
  (match d with
   | .msg_container items => specAckIdsItems items
   | .rpc_result _ obj => specAckIds msgId 0 obj
   | _ => []) ++ (if seqNo % 2 = 1 then [msgId] else [])

/-- Ack ids produced by the items of a container, in order. -/
def specAckIdsItems (items : TLItems) : List Int :=
  match items with
  | .nil => []
  | .cons mid sq _ d rest => specAckIds mid sq d ++ specAckIdsItems rest

end

/-- Whether a queued packet is a msgs_ack. -/
def isAckPacket (p : packetToSend) : Bool :=
  match p.msg with
  | .msgs_ack _ => true
  | _ => false

/-- The fixed ping packet built by pingRoutine in mtproto.go. -/
def pingRoutineTickPacket : packetToSend :=
  newPacket (TL.ping 0xCADACADA) none

/-- One iteration of the pingRoutine select loop: a pending stop token makes
the routine exit, otherwise the 60 second timer fires and the ping packet
is enqueued onto the internal queue. -/
def pingRoutineStep (stopRequested : Bool) (queue : List packetToSend) :
    Bool × List packetToSend :=
  if stopRequested then (true, queue) else (false, queue ++ [pingRoutineTickPacket])

/-- n timer firings of pingRoutine followed by nothing else. -/
def pingRoutineRun : Nat → List packetToSend → List packetToSend
  | 0, q => q
  | n + 1, q => pingRoutineRun n (pingRoutineStep false q).2

/-- Modelled from the spec: the ping packet the spec describes, carrying a
freshly drawn random id (the claim under test says the ping id is random). -/
def specPingPacket (randomId : Int) : packetToSend :=
  newPacket (TL.ping randomId) none

/-- Decimal digit bytes of a non-negative integer, used by the Sprintf
style formatting in DCAddr. -/
def natDecBytes (n : Nat) : List Nat :=
  (Nat.toDigits 10 n).map Char.toNat

/-- Byte rendering of a possibly negative integer in decimal. -/
def intDecBytes (n : Int) : List Nat :=
  if n < 0 then 45 :: natDecBytes (-n).toNat else natDecBytes n.toNat

/-- The host:port formatting of DCAddr (byte 58 is the colon). -/
def fmtDcAddr (o : TLDcOption) : List Nat :=
  o.ipAddress ++ [58] ++ intDecBytes o.port

/-- DCAddr from mtproto.go: first option matching the DC id and the ipv6
flag wins; absent means not found. -/
def DCAddr (opts : List TLDcOption) (dcID : Int) (ipv6 : Bool) : Option (List Nat) :=
  match opts with
  | [] => none
  | o :: rest => if o.id = dcID ∧ o.ipv6 = ipv6 then some (fmtDcAddr o) else DCAddr rest dcID ipv6

/-- The DC switching fragment of reconnectToDc (mtproto.go lines 386 to
396): clear encryptionReady when the target DC differs, then look up the
new endpoint unconditionally; a failed lookup aborts with the wrong DC
number error, otherwise the session gets the new DC id and address. -/
def reconnectDcSwitch (st : MState) (newDcID : Int) : MState × Option String :=
  let st₁ := if newDcID ≠ st.session.dcID then { st with encryptionReady := false } else st
  match DCAddr st₁.dcOptions newDcID false with
  | none => (st₁, some ("wrong DC number: " ++ toString newDcID))
  | some a => ({ st₁ with session := { st₁.session with dcID := newDcID, addr := a } }, none)

/-- Entry and exit events of the two reconnect entry points: reconnectLogged
(guarded by the binary semaphore) and the exported Reconnect method (which
calls reconnectToDc directly). -/
inductive RAction : Type where
  | startLogged
  | finishLogged
  | startDirect
  | finishDirect
deriving DecidableEq

/-- Semaphore state plus the number of currently running reconnect bodies
entered through each entry point. -/
structure ReconnState where
  sem : Bool
  loggedRunning : Nat
  directRunning : Nat
deriving DecidableEq

/-- One scheduler step.  startLogged models the select on reconnSemaphore in
reconnectLogged: when the semaphore is taken the caller aborts and the
state is unchanged; otherwise it takes the semaphore and runs.
finishLogged is the deferred release.  startDirect models the exported
Reconnect method, which runs reconnectToDc with no semaphore interaction. -/
def reconnStep (s : ReconnState) : RAction → ReconnState
  | .startLogged =>
    if s.sem then s else { s with sem := true, loggedRunning := s.loggedRunning + 1 }
  | .finishLogged =>
    if s.loggedRunning = 0 then s else { s with sem := false, loggedRunning := s.loggedRunning - 1 }
  | .startDirect => { s with directRunning := s.directRunning + 1 }
  | .finishDirect => { s with directRunning := s.directRunning - 1 }

/-- Run a trace of reconnect entry and exit events from the idle state. -/
def reconnRun (acts : List RAction) : ReconnState :=
  acts.foldl reconnStep ⟨false, 0, 0⟩

/-- Two's-complement reading of a 64-bit unsigned value, as in the int64
cast of binary.LittleEndian.Uint64. -/
def int64OfNat (n : Nat) : Int :=
  if n < 2 ^ 63 then (n : Int) else (n : Int) - 2 ^ 64

/-- Two's-complement reading of a 32-bit unsigned value, as in the int32
cast of binary.LittleEndian.Uint32. -/
def int32OfNat (n : Nat) : Int :=
  if n < 2 ^ 31 then (n : Int) else (n : Int) - 2 ^ 32

/-- Little-endian byte list to natural number (first byte is least
significant), as computed by binary.LittleEndian. -/
def leBytesToNat : List Nat → Nat
  | [] => 0
  | b :: rest => b + 256 * leBytesToNat rest

/-- Big-endian byte list to natural number, the reading used by
big.Int SetBytes. -/
def beBytesToNat (l : List Nat) : Nat :=
  l.foldl (fun a x => a * 256 + x) 0

/-- The k little-endian bytes of a natural number. -/
def leBytes : Nat → Nat → List Nat
  | 0, _ => []
  | k + 1, n => n % 256 :: leBytes k (n / 256)

/-- DecodeBuf from the decode-buffer file: the byte buffer, the read
offset, the recorded size and the sticky error. -/
structure DecodeBuf where
  buf : List Nat
  off : Nat
  size : Nat
  err : Option String
deriving DecidableEq

/-- NewDecodeBuf. -/
def NewDecodeBuf (b : List Nat) : DecodeBuf :=
  ⟨b, 0, b.length, none⟩

/-- DecodeBuf.Long: read 8 little-endian bytes as an i64.  Each operation
returns its value together with the successor buffer state. -/
def DecodeBuf.Long (m : DecodeBuf) : ℤ × DecodeBuf :=
  match m.err with
  | some _ => (0, m)
  | none =>
    if m.off + 8 > m.size then (0, { m with err := some "DecodeLong" })
    else (int64OfNat (leBytesToNat ((m.buf.drop m.off).take 8)), { m with off := m.off + 8 })

/-- DecodeBuf.Double: read 8 bytes; the value is kept as its raw IEEE bit
pattern (math.Float64frombits is a bijection on the bits and the claims
never inspect the float beyond its zero value, whose bit pattern is 0). -/
def DecodeBuf.Double (m : DecodeBuf) : Nat × DecodeBuf :=
  match m.err with
  | some _ => (0, m)
  | none =>
    if m.off + 8 > m.size then (0, { m with err := some "DecodeDouble" })
    else (leBytesToNat ((m.buf.drop m.off).take 8), { m with off := m.off + 8 })

/-- DecodeBuf.Int: read 4 little-endian bytes as an i32. -/
def DecodeBuf.Int (m : DecodeBuf) : ℤ × DecodeBuf :=
  match m.err with
  | some _ => (0, m)
  | none =>
    if m.off + 4 > m.size then (0, { m with err := some "DecodeInt" })
    else (int32OfNat (leBytesToNat ((m.buf.drop m.off).take 4)), { m with off := m.off + 4 })

/-- DecodeBuf.UInt: read 4 little-endian bytes as a u32. -/
def DecodeBuf.UInt (m : DecodeBuf) : Nat × DecodeBuf :=
  match m.err with
  | some _ => (0, m)
  | none =>
    if m.off + 4 > m.size then (0, { m with err := some "DecodeUInt" })
    else (leBytesToNat ((m.buf.drop m.off).take 4), { m with off := m.off + 4 })

/-- DecodeBuf.Bytes: read a raw run of the given length. -/
def DecodeBuf.Bytes (m : DecodeBuf) (sz : Nat) : List Nat × DecodeBuf :=
  match m.err with
  | some _ => ([], m)
  | none =>
    if m.off + sz > m.size then ([], { m with err := some "DecodeBytes" })
    else ((m.buf.drop m.off).take sz, { m with off := m.off + sz })

/-- The shared tail of DecodeBuf.StringBytes: bounds-check and copy the
payload at the given offset, then skip the padding. -/
def DecodeBuf.stringBytesBody (m : DecodeBuf) (off sz pad : Nat) : List Nat × DecodeBuf :=
  if off + sz > m.size then
    ([], { m with err := some "DecodeStringBytes: Wrong size" })
  else
    let x := (m.buf.drop off).take sz
    if off + sz + pad > m.size then
      ([], { m with err := some "DecodeStringBytes: Wrong padding" })
    else (x, { m with off := off + sz + pad })

/-- DecodeBuf.StringBytes: the protocol string framing.  One length byte
for payloads below 254, else the 254 marker and three little-endian length
bytes; zero padding brings the whole field to a 4-byte boundary.  The Go
expression (4 - x) and 3 equals (4 - x) mod 4 for x in 0..3, which is the
form used here. -/
def DecodeBuf.StringBytes (m : DecodeBuf) : List Nat × DecodeBuf :=
  match m.err with
  | some _ => ([], m)
  | none =>
    if m.off + 1 > m.size then ([], { m with err := some "DecodeStringBytes" })
    else
      let b0 := m.buf.getD m.off 0
      if b0 = 254 then
        if m.off + 1 + 3 > m.size then ([], { m with err := some "DecodeStringBytes" })
        else
          let sz := m.buf.getD (m.off + 1) 0 + m.buf.getD (m.off + 2) 0 * 256 +
            m.buf.getD (m.off + 3) 0 * 65536
          m.stringBytesBody (m.off + 4) sz ((4 - sz % 4) % 4)
      else
        m.stringBytesBody (m.off + 1) b0 ((4 - (b0 + 1) % 4) % 4)

/-- DecodeBuf.String: string bytes, with the empty string on error (a Go
string is its byte sequence). -/
def DecodeBuf.String (m : DecodeBuf) : List Nat × DecodeBuf :=
  let (b, m₁) := m.StringBytes
  match m₁.err with
  | some _ => ([], m₁)
  | none => (b, m₁)

/-- DecodeBuf.BigInt: decode string bytes and read them, prefixed with one
zero byte, as a big-endian unsigned big integer (big.Int SetBytes); the
result is absent exactly when the buffer carries an error. -/
def DecodeBuf.BigInt (m : DecodeBuf) : Option ℤ × DecodeBuf :=
  let (b, m₁) := m.StringBytes
  match m₁.err with
  | some _ => (none, m₁)
  | none => (some ((beBytesToNat (0 :: b) : ℤ)), m₁)

/-- Constructor tags; the numeric values come from the generated TL schema
file (not part of the core source) and only their distinctness matters
here. -/
def CRC_vector : Nat := 0x1cb5c415

/-- msg_container constructor tag. -/
def CRC_msg_container : Nat := 0x73f1f8dc

/-- rpc_result constructor tag. -/
def CRC_rpc_result : Nat := 0xf35c6d01

/-- gzip_packed constructor tag. -/
def CRC_gzip_packed : Nat := 0x3072cfa1

/-- boolTrue constructor tag. -/
def CRC_boolTrue : Nat := 0x997275b5

/-- boolFalse constructor tag. -/
def CRC_boolFalse : Nat := 0xbc799737

/-- DecodeBuf.Bool: boolTrue and boolFalse tags; any other tag yields
false as in the Go switch default. -/
def DecodeBuf.Bool (m : DecodeBuf) : Bool × DecodeBuf :=
  let (c, m₁) := m.UInt
  match m₁.err with
  | some _ => (false, m₁)
  | none =>
    if c = CRC_boolFalse then (false, m₁)
    else if c = CRC_boolTrue then (true, m₁)
    else (false, m₁)

/-- The element loop of DecodeBuf.VectorInt.  The Go loop stops at the
first error and discards the list; since reads after an error are no-ops,
running the remaining iterations leaves the same final state, and the
caller discards the list on error, so the early exit is immaterial. -/
def DecodeBuf.vecLoopInt (k : Nat) (m : DecodeBuf) : List ℤ × DecodeBuf :=
  match k with
  | 0 => ([], m)
  | k + 1 =>
    let (y, m₁) := m.Int
    let (ys, m₂) := DecodeBuf.vecLoopInt k m₁
    (y :: ys, m₂)

/-- DecodeBuf.VectorInt. -/
def DecodeBuf.VectorInt (m : DecodeBuf) : List ℤ × DecodeBuf :=
  let (c, m₁) := m.UInt
  match m₁.err with
  | some _ => ([], m₁)
  | none =>
    if c ≠ CRC_vector then ([], { m₁ with err := some "DecodeVectorInt: Wrong constructor" })
    else
      let (sz, m₂) := m₁.Int
      match m₂.err with
      | some _ => ([], m₂)
      | none =>
        if sz < 0 then ([], { m₂ with err := some "DecodeVectorInt: Wrong size" })
        else
          let (xs, m₃) := DecodeBuf.vecLoopInt sz.toNat m₂
          match m₃.err with
          | some _ => ([], m₃)
          | none => (xs, m₃)

/-- The element loop of DecodeBuf.VectorLong. -/
def DecodeBuf.vecLoopLong (k : Nat) (m : DecodeBuf) : List ℤ × DecodeBuf :=
  match k with
  | 0 => ([], m)
  | k + 1 =>
    let (y, m₁) := m.Long
    let (ys, m₂) := DecodeBuf.vecLoopLong k m₁
    (y :: ys, m₂)

/-- DecodeBuf.VectorLong. -/
def DecodeBuf.VectorLong (m : DecodeBuf) : List ℤ × DecodeBuf :=
  let (c, m₁) := m.UInt
  match m₁.err with
  | some _ => ([], m₁)
  | none =>
    if c ≠ CRC_vector then ([], { m₁ with err := some "DecodeVectorLong: Wrong constructor" })
    else
      let (sz, m₂) := m₁.Int
      match m₂.err with
      | some _ => ([], m₂)
      | none =>
        if sz < 0 then ([], { m₂ with err := some "DecodeVectorLong: Wrong size" })
        else
          let (xs, m₃) := DecodeBuf.vecLoopLong sz.toNat m₂
          match m₃.err with
          | some _ => ([], m₃)
          | none => (xs, m₃)

/-- The element loop of DecodeBuf.VectorString. -/
def DecodeBuf.vecLoopString (k : Nat) (m : DecodeBuf) : List (List Nat) × DecodeBuf :=
  match k with
  | 0 => ([], m)
  | k + 1 =>
    let (y, m₁) := m.String
    let (ys, m₂) := DecodeBuf.vecLoopString k m₁
    (y :: ys, m₂)

/-- DecodeBuf.VectorString. -/
def DecodeBuf.VectorString (m : DecodeBuf) : List (List Nat) × DecodeBuf :=
  let (c, m₁) := m.UInt
  match m₁.err with
  | some _ => ([], m₁)
  | none =>
    if c ≠ CRC_vector then ([], { m₁ with err := some "DecodeVectorString: Wrong constructor" })
    else
      let (sz, m₂) := m₁.Int
      match m₂.err with
      | some _ => ([], m₂)
      | none =>
        if sz < 0 then ([], { m₂ with err := some "DecodeVectorString: Wrong size" })
        else
          let (xs, m₃) := DecodeBuf.vecLoopString sz.toNat m₂
          match m₃.err with
          | some _ => ([], m₃)
          | none => (xs, m₃)

mutual

/-- DecodeBuf.Object.  gen stands for ObjectGenerated (the generated
schema decoder, outside the core source, passed as an oracle); gz stands
for the gzip inflate routine (external library).  fuel bounds the
recursion depth introduced by gzip re-decoding and nested objects; the
claims hold for every fuel.  nullObj models the nil result the Go code
returns on error. -/
def DecodeBuf.Object (gen : Nat → DecodeBuf → TL × DecodeBuf) (gz : List Nat → List Nat)
    (fuel : Nat) (m : DecodeBuf) : TL × DecodeBuf :=
  match fuel with
  | 0 => (TL.nullObj, m)
  | fuel + 1 =>
    let (c, m₁) := m.UInt
    match m₁.err with
    | some _ => (TL.nullObj, m₁)
    | none =>
      let (r, m₂) :=
        if c = CRC_msg_container then
          let (sz, mA) := m₁.Int
          let (items, mB) := DecodeBuf.containerItems gen gz fuel sz.toNat mA
          (match items with
           | none => TL.nullObj
           | some its => TL.msg_container its, mB)
        else if c = CRC_rpc_result then
          let (reqId, mA) := m₁.Long
          let (obj, mB) := DecodeBuf.Object gen gz fuel mA
          (TL.rpc_result reqId obj, mB)
        else if c = CRC_gzip_packed then
          let (sb, mA) := m₁.StringBytes
          let d := NewDecodeBuf (gz sb)
          let (r, _) := DecodeBuf.Object gen gz fuel d
          (r, mA)
        else gen c m₁
      match m₂.err with
      | some _ => (TL.nullObj, m₂)
      | none => (r, m₂)

/-- The item loop of the msg_container branch of DecodeBuf.Object: each
item reads msg id, seq no, size and a nested object; an error aborts the
whole container with a nil result. -/
def DecodeBuf.containerItems (gen : Nat → DecodeBuf → TL × DecodeBuf)
    (gz : List Nat → List Nat) (fuel : Nat) (cnt : Nat) (m : DecodeBuf) :
    Option TLItems × DecodeBuf :=
  match cnt with
  | 0 => (some TLItems.nil, m)
  | cnt + 1 =>
    let (mid, m₁) := m.Long
    let (sq, m₂) := m₁.Int
    let (sz, m₃) := m₂.Int
    let (d, m₄) := DecodeBuf.Object gen gz fuel m₃
    match m₄.err with
    | some _ => (none, m₄)
    | none =>
      match DecodeBuf.containerItems gen gz fuel cnt m₄ with
      | (none, m₅) => (none, m₅)
      | (some rest, m₅) => (some (TLItems.cons mid sq sz d rest), m₅)

end

/-- The element loop of DecodeBuf.Vector. -/
def DecodeBuf.vecLoopTL (gen : Nat → DecodeBuf → TL × DecodeBuf) (gz : List Nat → List Nat)
    (fuel : Nat) (k : Nat) (m : DecodeBuf) : List TL × DecodeBuf :=
  match k with
  | 0 => ([], m)
  | k + 1 =>
    let (y, m₁) := DecodeBuf.Object gen gz fuel m
    let (ys, m₂) := DecodeBuf.vecLoopTL gen gz fuel k m₁
    (y :: ys, m₂)

/-- DecodeBuf.Vector. -/
def DecodeBuf.Vector (gen : Nat → DecodeBuf → TL × DecodeBuf) (gz : List Nat → List Nat)
    (fuel : Nat) (m : DecodeBuf) : List TL × DecodeBuf :=
  let (c, m₁) := m.UInt
  match m₁.err with
  | some _ => ([], m₁)
  | none =>
    if c ≠ CRC_vector then ([], { m₁ with err := some "DecodeVector: Wrong constructor" })
    else
      let (sz, m₂) := m₁.Int
      match m₂.err with
      | some _ => ([], m₂)
      | none =>
        if sz < 0 then ([], { m₂ with err := some "DecodeVector: Wrong size" })
        else
          let (xs, m₃) := DecodeBuf.vecLoopTL gen gz fuel sz.toNat m₂
          match m₃.err with
          | some _ => ([], m₃)
          | none => (xs, m₃)

/-- Modelled from the spec: EncodeBuf.StringBytes (the encoder file is not
part of the provided source).  Payloads below 254 bytes get one length
byte; longer payloads get the 254 marker and three little-endian length
bytes; zero padding completes the field to a 4-byte boundary, matching the
in-source decoder. -/
def encStringBytes (b : List Nat) : List Nat :=
  if b.length < 254 then
    (b.length :: b) ++ List.replicate ((4 - ((b.length + 1) % 4)) % 4) 0
  else
    ([254, b.length % 256, b.length / 256 % 256, b.length / 65536 % 256] ++ b)
      ++ List.replicate ((4 - b.length % 4) % 4) 0

/-- Modelled from the spec: EncodeBuf.Long writes the i64 as its 8
little-endian two's-complement bytes. -/
def encLong (v : Int) : List Nat :=
  leBytes 8 (v % (2 : Int) ^ 64).toNat

/-- Modelled from the spec: EncodeBuf.String frames the string bytes with
the string-bytes framing. -/
def encString (s : List Nat) : List Nat :=
  encStringBytes s

/-- SessFileStore.Save: the file content written for a session, in order
auth key, auth key hash, server salt, address. -/
def SessFileStore_Save (sess : SessionInfo) : List Nat :=
  encStringBytes sess.authKey ++ encStringBytes sess.authKeyHash ++
    encLong sess.serverSalt ++ encString sess.addr

/-- SessFileStore.Load: an empty file fails the read; otherwise the first
4096 bytes are read into a fixed zero-initialised buffer of size 4096 and
the four fields are decoded from it; a decode error is surfaced, otherwise
the four fields are returned. -/
def SessFileStore_Load (file : List Nat) :
    Except String (List Nat × List Nat × Int × List Nat) :=
  if file.isEmpty then Except.error "read failed"
  else
    let b := (file ++ List.replicate 4096 0).take 4096
    let d₀ := NewDecodeBuf b
    let (authKey, d₁) := d₀.StringBytes
    let (authKeyHash, d₂) := d₁.StringBytes
    let (serverSalt, d₃) := d₂.Long
    let (addr, d₄) := d₃.String
    match d₄.err with
    | some e => Except.error e
    | none => Except.ok (authKey, authKeyHash, serverSalt, addr)

/-- Modelled from the spec: the on-disk layout asserted by the claim under
test, in which all four fields, including the server salt, are wrapped in
string-bytes framing. -/
def claimSaveBytes (sess : SessionInfo) : List Nat :=
  encStringBytes sess.authKey ++ encStringBytes sess.authKeyHash ++
    encStringBytes (leBytes 8 (sess.serverSalt % (2 : Int) ^ 64).toNat) ++
    encStringBytes sess.addr

/-- C2: processing a bad_server_salt notification stores the new salt in
the session, hands the updated session to the injected store, empties the
pending table while re-enqueueing every pending packet onto the internal
queue, and leaves every other session field and the rest of the state
unchanged (apart from the trailing ack emitted for an odd inbound seq
no). -/
theorem process_bad_server_salt_spec (msgId seqNo b₁ b₂ b₃ newSalt : Int) (mp : Bool)
    (st : MState) :
    (process msgId seqNo (TL.bad_server_salt b₁ b₂ b₃ newSalt) mp st).session =
      { st.session with serverSalt := newSalt } ∧
    (process msgId seqNo (TL.bad_server_salt b₁ b₂ b₃ newSalt) mp st).savedSessions =
      st.savedSessions ++ [{ st.session with serverSalt := newSalt }] ∧
    (process msgId seqNo (TL.bad_server_salt b₁ b₂ b₃ newSalt) mp st).msgsByID = [] ∧
    (process msgId seqNo (TL.bad_server_salt b₁ b₂ b₃ newSalt) mp st).sendQueue =
      st.sendQueue ++ st.msgsByID.map Prod.snd ++
        (if seqNo % 2 = 1 then [mkAckPacket msgId] else []) ∧
    (process msgId seqNo (TL.bad_server_salt b₁ b₂ b₃ newSalt) mp st).channels = st.channels ∧
    (process msgId seqNo (TL.bad_server_salt b₁ b₂ b₃ newSalt) mp st).warnings = st.warnings ∧
    (process msgId seqNo (TL.bad_server_salt b₁ b₂ b₃ newSalt) mp st).events = st.events ∧
    (process msgId seqNo (TL.bad_server_salt b₁ b₂ b₃ newSalt) mp st).encryptionReady =
      st.encryptionReady := by
  unfold process
  by_cases h : seqNo % 2 = 1 <;> simp [h]

/-- C5 counterexample: the ping worker does not carry a freshly drawn
random ping id; one timer firing enqueues the packet with the fixed id
0xCADACADA, which differs from the packet the claim prescribes for, say,
the random draw 7. -/
theorem ping_id_not_random :
    (pingRoutineStep false []).2 = [specPingPacket 0xCADACADA] ∧
    (pingRoutineStep false []).2 ≠ [specPingPacket 7] := by
  constructor
  · rfl
  · decide

/-- C5 amended: every timer firing of the ping worker enqueues a
fire-and-forget ping packet (no response channel) carrying the fixed ping
id 0xCADACADA, and a pending stop token makes the worker exit without
enqueueing. -/
theorem pingRoutine_fixed_id (n : Nat) (q : List packetToSend) :
    pingRoutineRun n q = q ++ List.replicate n pingRoutineTickPacket ∧
    pingRoutineTickPacket.msg = TL.ping 0xCADACADA ∧
    pingRoutineTickPacket.resp = none ∧
    pingRoutineStep true q = (true, q) := by
  refine ⟨?_, rfl, rfl, rfl⟩
  induction n generalizing q with
  | zero => simp [pingRoutineRun]
  | succ n ih =>
    simp [pingRoutineRun, pingRoutineStep, ih, List.replicate_succ, List.append_assoc]

/-- Helper for the reconnect semaphore model: the mutual-exclusion
invariant of the logged entry point is preserved by every step. -/
theorem reconnInvariant (acts : List RAction) (s : ReconnState)
    (h₁ : s.loggedRunning ≤ 1) (h₂ : s.sem = false → s.loggedRunning = 0) :
    (acts.foldl reconnStep s).loggedRunning ≤ 1 ∧
    ((acts.foldl reconnStep s).sem = false → (acts.foldl reconnStep s).loggedRunning = 0) := by
  induction acts generalizing s with
  | nil => exact ⟨h₁, h₂⟩
  | cons a rest ih =>
    have hstep : (reconnStep s a).loggedRunning ≤ 1 ∧
        ((reconnStep s a).sem = false → (reconnStep s a).loggedRunning = 0) := by
      cases a with
      | startLogged =>
        by_cases hs : s.sem = true
        · have hid : reconnStep s RAction.startLogged = s := by simp [reconnStep, hs]
          rw [hid]; exact ⟨h₁, h₂⟩
        · have hz := h₂ (by simpa using hs)
          simp [reconnStep, hs, hz]
      | finishLogged =>
        by_cases hz : s.loggedRunning = 0
        · have hid : reconnStep s RAction.finishLogged = s := by simp [reconnStep, hz]
          rw [hid]; exact ⟨h₁, h₂⟩
        · simp [reconnStep, hz]
          omega
      | startDirect => exact ⟨h₁, h₂⟩
      | finishDirect => exact ⟨h₁, h₂⟩
    exact ih (reconnStep s a) hstep.1 hstep.2

/-- C9 counterexample: two overlapping invocations of the exported
Reconnect method both run the reconnect procedure, because Reconnect calls
reconnectToDc directly and never touches the reconnect semaphore; after
two startDirect events two reconnect bodies are running at once. -/
theorem reconnect_semaphore_bypassed :
    (reconnRun [RAction.startDirect, RAction.startDirect]).directRunning = 2 ∧
    (reconnRun [RAction.startDirect, RAction.startDirect]).loggedRunning +
      (reconnRun [RAction.startDirect, RAction.startDirect]).directRunning = 2 := by
  decide

/-- C9 amended: only the internal reconnectLogged entry point acquires the
binary semaphore, so at most one reconnectLogged body runs at any time and
a logged caller that finds the semaphore taken returns without running;
the exported Reconnect method bypasses the semaphore and always runs. -/
theorem reconnectLogged_mutual_exclusion (acts : List RAction) :
    (reconnRun acts).loggedRunning ≤ 1 ∧
    ((reconnRun acts).sem = false → (reconnRun acts).loggedRunning = 0) ∧
    (∀ s : ReconnState, s.sem = true → reconnStep s RAction.startLogged = s) ∧
    (∀ s : ReconnState, (reconnStep s RAction.startDirect).directRunning =
      s.directRunning + 1) := by
  refine ⟨(reconnInvariant acts ⟨false, 0, 0⟩ (by simp) (by simp)).1,
    (reconnInvariant acts ⟨false, 0, 0⟩ (by simp) (by simp)).2, ?_, ?_⟩
  · intro s hs
    simp [reconnStep, hs]
  · intro s
    simp [reconnStep]

/-- C9 witness: the amended statement at the one-event trace that takes
the semaphore. -/
theorem reconnectLogged_mutual_exclusion_witness :
    (reconnRun [RAction.startLogged]).loggedRunning ≤ 1 ∧
    ((reconnRun [RAction.startLogged]).sem = false →
      (reconnRun [RAction.startLogged]).loggedRunning = 0) ∧
    (∀ s : ReconnState, s.sem = true → reconnStep s RAction.startLogged = s) ∧
    (∀ s : ReconnState, (reconnStep s RAction.startDirect).directRunning =
      s.directRunning + 1) :=
  reconnectLogged_mutual_exclusion [RAction.startLogged]

/-- C7 counterexample: the endpoint lookup is not restricted to DC
changes.  Reconnecting to the current DC (id 2) with an empty DC-options
table fails with the wrong-DC-number error, so a reconnect to the current
DC does depend on the DC-options table, contrary to the claim. -/
theorem reconnect_same_dc_consults_dcoptions :
    (reconnectDcSwitch ⟨⟨2, [], [], 0, [], 0⟩, [], [], [], [], 0, [], false, true, []⟩ 2).2 =
      some ("wrong DC number: " ++ toString (2 : Int)) ∧
    (reconnectDcSwitch ⟨⟨2, [], [], 0, [], 0⟩, [], [], [], [], 0, [], false, true, []⟩
      2).1.encryptionReady = true := by
  constructor <;> rfl

/-- C7 amended: during the DC switch of reconnectToDc the encryption-ready
flag is cleared exactly when the target DC differs from the current one;
the endpoint is looked up in the DC-options table unconditionally (also
for a reconnect to the current DC) and the switch fails exactly when the
lookup misses; on success the session receives the new DC id and the
looked-up address with all other session fields unchanged. -/
theorem reconnectDcSwitch_spec (st : MState) (newDcID : Int) :
    (reconnectDcSwitch st newDcID).1.encryptionReady =
      (if newDcID ≠ st.session.dcID then false else st.encryptionReady) ∧
    ((reconnectDcSwitch st newDcID).2 = none ↔
      (DCAddr st.dcOptions newDcID false).isSome = true) ∧
    (∀ a, DCAddr st.dcOptions newDcID false = some a →
      (reconnectDcSwitch st newDcID).1.session =
        { st.session with dcID := newDcID, addr := a }) ∧
    (DCAddr st.dcOptions newDcID false = none →
      (reconnectDcSwitch st newDcID).1.session = st.session ∧
      (reconnectDcSwitch st newDcID).2 = some ("wrong DC number: " ++ toString newDcID)) ∧
    (reconnectDcSwitch st newDcID).1.dcOptions = st.dcOptions := by
  by_cases h : newDcID = st.session.dcID
  · cases hdc : DCAddr st.dcOptions st.session.dcID false with
    | none => simp [reconnectDcSwitch, h, hdc]
    | some a => simp [reconnectDcSwitch, h, hdc]
  · cases hdc : DCAddr st.dcOptions newDcID false with
    | none => simp [reconnectDcSwitch, h, hdc]
    | some a => simp [reconnectDcSwitch, h, hdc]

/-- C7 witness: the amended statement at a concrete state whose table
holds an ipv4 option for DC 4, reconnecting from DC 2 to DC 4. -/
theorem reconnectDcSwitch_spec_witness :
    (reconnectDcSwitch ⟨⟨2, [], [], 0, [], 0⟩, [], [], [], [], 0, [], false, true,
        [⟨4, false, [49], 443⟩]⟩ 4).1.encryptionReady =
      (if (4 : Int) ≠ (⟨⟨2, [], [], 0, [], 0⟩, [], [], [], [], 0, [], false, true,
        [⟨4, false, [49], 443⟩]⟩ : MState).session.dcID then false else
        (⟨⟨2, [], [], 0, [], 0⟩, [], [], [], [], 0, [], false, true,
        [⟨4, false, [49], 443⟩]⟩ : MState).encryptionReady) ∧
    ((reconnectDcSwitch ⟨⟨2, [], [], 0, [], 0⟩, [], [], [], [], 0, [], false, true,
        [⟨4, false, [49], 443⟩]⟩ 4).2 = none ↔
      (DCAddr [⟨4, false, [49], 443⟩] 4 false).isSome = true) ∧
    (∀ a, DCAddr [⟨4, false, [49], 443⟩] 4 false = some a →
      (reconnectDcSwitch ⟨⟨2, [], [], 0, [], 0⟩, [], [], [], [], 0, [], false, true,
        [⟨4, false, [49], 443⟩]⟩ 4).1.session =
        { (⟨⟨2, [], [], 0, [], 0⟩, [], [], [], [], 0, [], false, true,
        [⟨4, false, [49], 443⟩]⟩ : MState).session with dcID := 4, addr := a }) ∧
    (DCAddr [⟨4, false, [49], 443⟩] 4 false = none →
      (reconnectDcSwitch ⟨⟨2, [], [], 0, [], 0⟩, [], [], [], [], 0, [], false, true,
        [⟨4, false, [49], 443⟩]⟩ 4).1.session =
        (⟨⟨2, [], [], 0, [], 0⟩, [], [], [], [], 0, [], false, true,
        [⟨4, false, [49], 443⟩]⟩ : MState).session ∧
      (reconnectDcSwitch ⟨⟨2, [], [], 0, [], 0⟩, [], [], [], [], 0, [], false, true,
        [⟨4, false, [49], 443⟩]⟩ 4).2 = some ("wrong DC number: " ++ toString (4 : Int))) ∧
    (reconnectDcSwitch ⟨⟨2, [], [], 0, [], 0⟩, [], [], [], [], 0, [], false, true,
        [⟨4, false, [49], 443⟩]⟩ 4).1.dcOptions = [⟨4, false, [49], 443⟩] :=
  reconnectDcSwitch_spec ⟨⟨2, [], [], 0, [], 0⟩, [], [], [], [], 0, [], false, true,
    [⟨4, false, [49], 443⟩]⟩ 4

/-- A key outside the key list is not found. -/
theorem alLookup_not_mem {α β : Type} [DecidableEq α] (k : α) (t : List (α × β))
    (h : k ∉ t.map Prod.fst) : alLookup k t = none := by
  induction t with
  | nil => rfl
  | cons kv rest ih =>
    obtain ⟨k₁, v⟩ := kv
    simp only [List.map_cons, List.mem_cons] at h
    push_neg at h
    have hne : ¬k₁ = k := fun hh => h.1 hh.symm
    simp [alLookup, hne, ih h.2]

/-- Erasing a key removes it from a duplicate-free table. -/
theorem alLookup_alErase_self {α β : Type} [DecidableEq α] (k : α) (t : List (α × β))
    (hnd : (t.map Prod.fst).Nodup) : alLookup k (alErase k t) = none := by
  induction t with
  | nil => rfl
  | cons kv rest ih =>
    obtain ⟨k₁, v⟩ := kv
    simp only [List.map_cons, List.nodup_cons] at hnd
    by_cases h : k₁ = k
    · subst h
      simpa [alErase] using alLookup_not_mem k₁ rest hnd.1
    · simp [alErase, h, alLookup, ih hnd.2]

/-- Erasing one key leaves the others alone. -/
theorem alLookup_alErase_ne {α β : Type} [DecidableEq α] (k k₂ : α) (t : List (α × β))
    (h : k₂ ≠ k) : alLookup k₂ (alErase k t) = alLookup k₂ t := by
  induction t with
  | nil => rfl
  | cons kv rest ih =>
    obtain ⟨k₁, v⟩ := kv
    by_cases h₁ : k₁ = k
    · subst h₁
      have hne : ¬k₁ = k₂ := fun hh => h hh.symm
      simp [alErase, alLookup, hne]
    · simp [alErase, h₁, alLookup, ih]

/-- Updating a key rewrites its value through the function. -/
theorem alLookup_alUpdate_self {α β : Type} [DecidableEq α] (k : α) (f : β → β)
    (t : List (α × β)) : alLookup k (alUpdate k f t) = (alLookup k t).map f := by
  induction t with
  | nil => rfl
  | cons kv rest ih =>
    obtain ⟨k₁, v⟩ := kv
    by_cases h : k₁ = k <;> simp [alUpdate, alLookup, h, ih]

/-- Updating one key leaves the others alone. -/
theorem alLookup_alUpdate_ne {α β : Type} [DecidableEq α] (k k₂ : α) (f : β → β)
    (t : List (α × β)) (h : k₂ ≠ k) : alLookup k₂ (alUpdate k f t) = alLookup k₂ t := by
  induction t with
  | nil => rfl
  | cons kv rest ih =>
    obtain ⟨k₁, v⟩ := kv
    by_cases h₁ : k₁ = k
    · subst h₁
      have hne : ¬k₁ = k₂ := fun hh => h hh.symm
      simp [alUpdate, alLookup, hne]
    · simp [alUpdate, h₁, alLookup, ih]

/-- Updating keeps the key list. -/
theorem alUpdate_keys {α β : Type} [DecidableEq α] (k : α) (f : β → β) (t : List (α × β)) :
    (alUpdate k f t).map Prod.fst = t.map Prod.fst := by
  induction t with
  | nil => rfl
  | cons kv rest ih =>
    obtain ⟨k₁, v⟩ := kv
    by_cases h : k₁ = k <;> simp [alUpdate, h, ih]

/-- The erased table is a sublist of the original. -/
theorem alErase_sublist {α β : Type} [DecidableEq α] (k : α) (t : List (α × β)) :
    (alErase k t).Sublist t := by
  induction t with
  | nil => simp [alErase]
  | cons kv rest ih =>
    obtain ⟨k₁, v⟩ := kv
    by_cases h₁ : k₁ = k
    · simp only [alErase, if_pos h₁]
      exact (List.Sublist.refl rest).cons (k₁, v)
    · simp only [alErase, if_neg h₁]
      exact ih.cons₂ (k₁, v)

/-- Erasing preserves duplicate-freedom of the keys. -/
theorem alErase_keys_nodup {α β : Type} [DecidableEq α] (k : α) (t : List (α × β))
    (hnd : (t.map Prod.fst).Nodup) : ((alErase k t).map Prod.fst).Nodup :=
  hnd.sublist ((alErase_sublist k t).map Prod.fst)

/-- Entries surviving an erase were in the table. -/
theorem mem_alErase {α β : Type} [DecidableEq α] (k : α) (t : List (α × β)) (kv : α × β)
    (h : kv ∈ alErase k t) : kv ∈ t :=
  (alErase_sublist k t).subset h

/-- A value property preserved by the update function holds for all entries
after an update. -/
theorem mem_alUpdate_forall {α β : Type} [DecidableEq α] (P : β → Prop) (k : α) (f : β → β)
    (t : List (α × β)) (hf : ∀ b, P b → P (f b)) (h : ∀ kv ∈ t, P kv.2) :
    ∀ kv ∈ alUpdate k f t, P kv.2 := by
  induction t with
  | nil => simp [alUpdate]
  | cons kv₁ rest ih =>
    obtain ⟨k₁, v⟩ := kv₁
    intro kv hkv
    by_cases h₁ : k₁ = k
    · simp only [alUpdate, if_pos h₁, List.mem_cons] at hkv
      rcases hkv with hkv | hkv
      · subst hkv
        exact hf v (h (k₁, v) (by simp))
      · exact h kv (by simp [hkv])
    · simp only [alUpdate, if_neg h₁, List.mem_cons] at hkv
      rcases hkv with hkv | hkv
      · subst hkv
        exact h (k₁, v) (by simp)
      · exact ih (fun kv₂ hkv₂ => h kv₂ (by simp [hkv₂])) kv hkv

/-- C3: completion of a pending packet writes to its response channel at
most once.  If the msg id is pending with a live response channel, exactly
one value is appended and the channel is closed and the entry is removed;
if the response slot is already nil, only the warning counter grows and
the entry is still removed; an absent msg id changes nothing; a repeated
completion of the same msg id is a no-op; the send queue is untouched. -/
theorem clearPacketData_at_most_once (msgID : Int) (r : TL) (st : MState)
    (hnd : (st.msgsByID.map Prod.fst).Nodup) :
    (∀ p, alLookup msgID st.msgsByID = some p →
      alLookup msgID (clearPacketData msgID r st).msgsByID = none ∧
      (∀ cid, p.resp = some cid →
        (clearPacketData msgID r st).channels =
          alUpdate cid (fun c => { sent := c.sent ++ [r], closed := true }) st.channels ∧
        (clearPacketData msgID r st).warnings = st.warnings) ∧
      (p.resp = none →
        (clearPacketData msgID r st).channels = st.channels ∧
        (clearPacketData msgID r st).warnings = st.warnings + 1)) ∧
    (alLookup msgID st.msgsByID = none → clearPacketData msgID r st = st) ∧
    (∀ r₂, clearPacketData msgID r₂ (clearPacketData msgID r st) = clearPacketData msgID r st) ∧
    (clearPacketData msgID r st).sendQueue = st.sendQueue := by
  cases hl : alLookup msgID st.msgsByID with
  | none =>
    refine ⟨by simp [hl], fun _ => by simp [clearPacketData, hl], ?_, by simp [clearPacketData, hl]⟩
    intro r₂
    simp [clearPacketData, hl]
  | some p =>
    cases hr : p.resp with
    | none =>
      have hres : clearPacketData msgID r st =
          { st with
            warnings := st.warnings + 1
            msgsByID := alErase msgID st.msgsByID } := by
        simp [clearPacketData, hl, hr]
      have hnone : alLookup msgID (clearPacketData msgID r st).msgsByID = none := by
        rw [hres]
        exact alLookup_alErase_self msgID st.msgsByID hnd
      refine ⟨?_, by simp [hl], ?_, by rw [hres]⟩
      · intro q hq
        cases hq
        refine ⟨hnone, ?_, ?_⟩
        · intro cid hcid
          simp [hr] at hcid
        · intro _
          rw [hres]
          exact ⟨rfl, rfl⟩
      · intro r₂
        generalize hgen : clearPacketData msgID r st = st₂ at hnone
        simp [clearPacketData, hnone]
    | some cid =>
      have hres : clearPacketData msgID r st =
          { st with
            channels := sendAndClose cid r st.channels
            msgsByID := alErase msgID st.msgsByID } := by
        simp [clearPacketData, hl, hr]
      have hnone : alLookup msgID (clearPacketData msgID r st).msgsByID = none := by
        rw [hres]
        exact alLookup_alErase_self msgID st.msgsByID hnd
      refine ⟨?_, by simp [hl], ?_, by rw [hres]⟩
      · intro q hq
        cases hq
        refine ⟨hnone, ?_, ?_⟩
        · intro cid₂ hcid
          rw [hr] at hcid
          cases hcid
          rw [hres]
          exact ⟨rfl, rfl⟩
        · intro hn
          simp [hr] at hn
      · intro r₂
        generalize hgen : clearPacketData msgID r st = st₂ at hnone
        simp [clearPacketData, hnone]

/-- C3 witness: the statement at a one-entry table whose packet waits on
channel 0. -/
theorem clearPacketData_at_most_once_witness :
    ((([(5, ⟨5, 1, TL.other 9, some 0, true⟩)] : List (Int × packetToSend)).map
      Prod.fst).Nodup) ∧
    (∀ p, alLookup 5 ([(5, ⟨5, 1, TL.other 9, some 0, true⟩)] : List (Int × packetToSend)) = some p →
      alLookup 5 (clearPacketData 5 (TL.other 3)
        ⟨⟨2, [], [], 0, [], 0⟩, [], [(5, ⟨5, 1, TL.other 9, some 0, true⟩)], [],
          [(0, ⟨[], false⟩)], 0, [], false, true, []⟩).msgsByID = none ∧
      (∀ cid, p.resp = some cid →
        (clearPacketData 5 (TL.other 3)
          ⟨⟨2, [], [], 0, [], 0⟩, [], [(5, ⟨5, 1, TL.other 9, some 0, true⟩)], [],
            [(0, ⟨[], false⟩)], 0, [], false, true, []⟩).channels =
          alUpdate cid (fun c => { sent := c.sent ++ [TL.other 3], closed := true })
            [(0, ⟨[], false⟩)] ∧
        (clearPacketData 5 (TL.other 3)
          ⟨⟨2, [], [], 0, [], 0⟩, [], [(5, ⟨5, 1, TL.other 9, some 0, true⟩)], [],
            [(0, ⟨[], false⟩)], 0, [], false, true, []⟩).warnings = 0) ∧
      (p.resp = none →
        (clearPacketData 5 (TL.other 3)
          ⟨⟨2, [], [], 0, [], 0⟩, [], [(5, ⟨5, 1, TL.other 9, some 0, true⟩)], [],
            [(0, ⟨[], false⟩)], 0, [], false, true, []⟩).channels = [(0, ⟨[], false⟩)] ∧
        (clearPacketData 5 (TL.other 3)
          ⟨⟨2, [], [], 0, [], 0⟩, [], [(5, ⟨5, 1, TL.other 9, some 0, true⟩)], [],
            [(0, ⟨[], false⟩)], 0, [], false, true, []⟩).warnings = 0 + 1)) ∧
    (alLookup 5 ([(5, ⟨5, 1, TL.other 9, some 0, true⟩)] : List (Int × packetToSend)) = none →
      clearPacketData 5 (TL.other 3)
        ⟨⟨2, [], [], 0, [], 0⟩, [], [(5, ⟨5, 1, TL.other 9, some 0, true⟩)], [],
          [(0, ⟨[], false⟩)], 0, [], false, true, []⟩ =
        ⟨⟨2, [], [], 0, [], 0⟩, [], [(5, ⟨5, 1, TL.other 9, some 0, true⟩)], [],
          [(0, ⟨[], false⟩)], 0, [], false, true, []⟩) ∧
    (∀ r₂, clearPacketData 5 r₂ (clearPacketData 5 (TL.other 3)
        ⟨⟨2, [], [], 0, [], 0⟩, [], [(5, ⟨5, 1, TL.other 9, some 0, true⟩)], [],
          [(0, ⟨[], false⟩)], 0, [], false, true, []⟩) =
      clearPacketData 5 (TL.other 3)
        ⟨⟨2, [], [], 0, [], 0⟩, [], [(5, ⟨5, 1, TL.other 9, some 0, true⟩)], [],
          [(0, ⟨[], false⟩)], 0, [], false, true, []⟩) ∧
    (clearPacketData 5 (TL.other 3)
      ⟨⟨2, [], [], 0, [], 0⟩, [], [(5, ⟨5, 1, TL.other 9, some 0, true⟩)], [],
        [(0, ⟨[], false⟩)], 0, [], false, true, []⟩).sendQueue = [] :=
  ⟨by decide, clearPacketData_at_most_once 5 (TL.other 3)
    ⟨⟨2, [], [], 0, [], 0⟩, [], [(5, ⟨5, 1, TL.other 9, some 0, true⟩)], [],
      [(0, ⟨[], false⟩)], 0, [], false, true, []⟩ (by decide)⟩

/-- ackOne preserves duplicate-freedom of the table keys. -/
theorem ackOne_keys_nodup (t : List (Int × packetToSend)) (i : Int)
    (hnd : (t.map Prod.fst).Nodup) : ((ackOne t i).map Prod.fst).Nodup := by
  unfold ackOne
  cases alLookup i t with
  | none => exact hnd
  | some p =>
    by_cases hr : p.resp = none
    · simp only [hr, if_pos rfl]
      refine alErase_keys_nodup _ _ ?_
      rw [alUpdate_keys]
      exact hnd
    · simp only [if_neg hr]
      rw [alUpdate_keys]
      exact hnd

/-- Lookup after one ackOne step: the acked id loses its needAck flag and
is removed exactly when it has no response waiter; other ids are
untouched. -/
theorem alLookup_ackOne (i id : Int) (t : List (Int × packetToSend))
    (hnd : (t.map Prod.fst).Nodup) :
    alLookup id (ackOne t i) =
      if id = i then
        (match alLookup i t with
         | none => none
         | some p => if p.resp = none then none else some { p with needAck := false })
      else alLookup id t := by
  unfold ackOne
  cases hl : alLookup i t with
  | none =>
    by_cases h : id = i
    · subst h
      simp [hl]
    · simp [h]
  | some p =>
    by_cases hr : p.resp = none
    · simp only [hr, if_pos rfl]
      by_cases h : id = i
      · subst h
        have hnd₂ : ((alUpdate id (fun q => { q with needAck := false }) t).map
            Prod.fst).Nodup := by
          rw [alUpdate_keys]
          exact hnd
        simp [alLookup_alErase_self _ _ hnd₂, hl, hr]
      · simp [h, alLookup_alErase_ne _ _ _ h, alLookup_alUpdate_ne _ _ _ _ h]
    · simp only [if_neg hr]
      by_cases h : id = i
      · subst h
        simp [alLookup_alUpdate_self, hl, hr]
      · simp [h, alLookup_alUpdate_ne _ _ _ _ h]

/-- Lookup after the whole msgs_ack loop. -/
theorem alLookup_processAcks (ids : List Int) (t : List (Int × packetToSend))
    (hnd : (t.map Prod.fst).Nodup) (id : Int) :
    alLookup id (processAcks ids t) =
      if id ∈ ids then
        (match alLookup id t with
         | none => none
         | some p => if p.resp = none then none else some { p with needAck := false })
      else alLookup id t := by
  induction ids generalizing t with
  | nil => simp [processAcks]
  | cons i rest ih =>
    have hstep : processAcks (i :: rest) t = processAcks rest (ackOne t i) := rfl
    rw [hstep, ih (ackOne t i) (ackOne_keys_nodup t i hnd),
      alLookup_ackOne i id t hnd]
    by_cases hii : id = i
    · subst hii
      by_cases hmem : id ∈ rest
      · simp only [hmem, if_true, if_pos rfl, List.mem_cons, true_or]
        cases hl : alLookup id t with
        | none => simp
        | some p =>
          by_cases hr : p.resp = none
          · simp [hr]
          · simp [hr]
      · simp [hmem]
    · by_cases hmem : id ∈ rest
      · simp [hii, hmem]
      · simp [hii, hmem]

/-- C4: processing a msgs_ack clears the needAck flag of every acked
pending packet and removes the packet exactly when it has no response
waiter; acked ids not in the table stay absent, other table entries are
untouched, no response channel is written, and the queue and the session
are untouched (apart from the trailing ack for an odd inbound seq no). -/
theorem process_msgs_ack_spec (msgId seqNo : Int) (ids : List Int) (mp : Bool) (st : MState)
    (hnd : (st.msgsByID.map Prod.fst).Nodup) :
    (∀ id ∈ ids, ∀ p, alLookup id st.msgsByID = some p →
      alLookup id (process msgId seqNo (TL.msgs_ack ids) mp st).msgsByID =
        (if p.resp = none then none else some { p with needAck := false })) ∧
    (∀ id ∈ ids, alLookup id st.msgsByID = none →
      alLookup id (process msgId seqNo (TL.msgs_ack ids) mp st).msgsByID = none) ∧
    (∀ id, id ∉ ids →
      alLookup id (process msgId seqNo (TL.msgs_ack ids) mp st).msgsByID =
        alLookup id st.msgsByID) ∧
    (process msgId seqNo (TL.msgs_ack ids) mp st).channels = st.channels ∧
    (process msgId seqNo (TL.msgs_ack ids) mp st).sendQueue =
      st.sendQueue ++ (if seqNo % 2 = 1 then [mkAckPacket msgId] else []) ∧
    (process msgId seqNo (TL.msgs_ack ids) mp st).session = st.session ∧
    (process msgId seqNo (TL.msgs_ack ids) mp st).savedSessions = st.savedSessions := by
  have htbl : (process msgId seqNo (TL.msgs_ack ids) mp st).msgsByID =
      processAcks ids st.msgsByID := by
    simp only [process]
    split <;> rfl
  have hch : (process msgId seqNo (TL.msgs_ack ids) mp st).channels = st.channels := by
    simp only [process]
    split <;> rfl
  have hqu : (process msgId seqNo (TL.msgs_ack ids) mp st).sendQueue =
      st.sendQueue ++ (if seqNo % 2 = 1 then [mkAckPacket msgId] else []) := by
    simp only [process]
    split <;> simp_all
  have hsess : (process msgId seqNo (TL.msgs_ack ids) mp st).session = st.session := by
    simp only [process]
    split <;> rfl
  have hsaved : (process msgId seqNo (TL.msgs_ack ids) mp st).savedSessions =
      st.savedSessions := by
    simp only [process]
    split <;> rfl
  refine ⟨?_, ?_, ?_, hch, hqu, hsess, hsaved⟩
  · intro id hid p hp
    rw [htbl, alLookup_processAcks ids st.msgsByID hnd id]
    simp [hid, hp]
  · intro id hid hp
    rw [htbl, alLookup_processAcks ids st.msgsByID hnd id]
    simp [hid, hp]
  · intro id hid
    rw [htbl, alLookup_processAcks ids st.msgsByID hnd id]
    simp [hid]

/-- C4 witness: the statement at a two-entry table, acking one id with a
waiter, one id without, and one absent id. -/
theorem process_msgs_ack_spec_witness :
    (∀ id ∈ [(1 : Int), 2, 3], ∀ p,
      alLookup id ([(1, ⟨1, 1, TL.other 7, none, true⟩),
        (2, ⟨2, 3, TL.other 8, some 0, true⟩)] : List (Int × packetToSend)) = some p →
      alLookup id (process 9 2 (TL.msgs_ack [1, 2, 3]) true
        ⟨⟨2, [], [], 0, [], 0⟩, [], [(1, ⟨1, 1, TL.other 7, none, true⟩),
          (2, ⟨2, 3, TL.other 8, some 0, true⟩)], [], [(0, ⟨[], false⟩)], 0, [],
          false, true, []⟩).msgsByID =
        (if p.resp = none then none else some { p with needAck := false })) ∧
    (∀ id ∈ [(1 : Int), 2, 3],
      alLookup id ([(1, ⟨1, 1, TL.other 7, none, true⟩),
        (2, ⟨2, 3, TL.other 8, some 0, true⟩)] : List (Int × packetToSend)) = none →
      alLookup id (process 9 2 (TL.msgs_ack [1, 2, 3]) true
        ⟨⟨2, [], [], 0, [], 0⟩, [], [(1, ⟨1, 1, TL.other 7, none, true⟩),
          (2, ⟨2, 3, TL.other 8, some 0, true⟩)], [], [(0, ⟨[], false⟩)], 0, [],
          false, true, []⟩).msgsByID = none) ∧
    (∀ id, id ∉ [(1 : Int), 2, 3] →
      alLookup id (process 9 2 (TL.msgs_ack [1, 2, 3]) true
        ⟨⟨2, [], [], 0, [], 0⟩, [], [(1, ⟨1, 1, TL.other 7, none, true⟩),
          (2, ⟨2, 3, TL.other 8, some 0, true⟩)], [], [(0, ⟨[], false⟩)], 0, [],
          false, true, []⟩).msgsByID =
        alLookup id ([(1, ⟨1, 1, TL.other 7, none, true⟩),
          (2, ⟨2, 3, TL.other 8, some 0, true⟩)] : List (Int × packetToSend))) ∧
    (process 9 2 (TL.msgs_ack [1, 2, 3]) true
      ⟨⟨2, [], [], 0, [], 0⟩, [], [(1, ⟨1, 1, TL.other 7, none, true⟩),
        (2, ⟨2, 3, TL.other 8, some 0, true⟩)], [], [(0, ⟨[], false⟩)], 0, [],
        false, true, []⟩).channels = [(0, ⟨[], false⟩)] ∧
    (process 9 2 (TL.msgs_ack [1, 2, 3]) true
      ⟨⟨2, [], [], 0, [], 0⟩, [], [(1, ⟨1, 1, TL.other 7, none, true⟩),
        (2, ⟨2, 3, TL.other 8, some 0, true⟩)], [], [(0, ⟨[], false⟩)], 0, [],
        false, true, []⟩).sendQueue =
      [] ++ (if (2 : Int) % 2 = 1 then [mkAckPacket 9] else []) ∧
    (process 9 2 (TL.msgs_ack [1, 2, 3]) true
      ⟨⟨2, [], [], 0, [], 0⟩, [], [(1, ⟨1, 1, TL.other 7, none, true⟩),
        (2, ⟨2, 3, TL.other 8, some 0, true⟩)], [], [(0, ⟨[], false⟩)], 0, [],
        false, true, []⟩).session = ⟨2, [], [], 0, [], 0⟩ ∧
    (process 9 2 (TL.msgs_ack [1, 2, 3]) true
      ⟨⟨2, [], [], 0, [], 0⟩, [], [(1, ⟨1, 1, TL.other 7, none, true⟩),
        (2, ⟨2, 3, TL.other 8, some 0, true⟩)], [], [(0, ⟨[], false⟩)], 0, [],
        false, true, []⟩).savedSessions = [] :=
  process_msgs_ack_spec 9 2 [1, 2, 3] true
    ⟨⟨2, [], [], 0, [], 0⟩, [], [(1, ⟨1, 1, TL.other 7, none, true⟩),
      (2, ⟨2, 3, TL.other 8, some 0, true⟩)], [], [(0, ⟨[], false⟩)], 0, [],
      false, true, []⟩ (by decide)

/-- clearPacketData never enqueues anything. -/
theorem clearPacketData_sendQueue_eq (msgID : Int) (r : TL) (st : MState) :
    (clearPacketData msgID r st).sendQueue = st.sendQueue := by
  unfold clearPacketData
  cases alLookup msgID st.msgsByID with
  | none => rfl
  | some p => cases hr : p.resp <;> simp [hr]

/-- clearPacketData only removes table entries. -/
theorem clearPacketData_table_sub (msgID : Int) (r : TL) (st : MState) :
    ∀ kv ∈ (clearPacketData msgID r st).msgsByID, kv ∈ st.msgsByID := by
  unfold clearPacketData
  cases alLookup msgID st.msgsByID with
  | none => exact fun kv h => h
  | some p =>
    cases hr : p.resp with
    | none =>
      intro kv h
      simp only [hr] at h
      exact mem_alErase _ _ _ h
    | some cid =>
      intro kv h
      simp only [hr] at h
      exact mem_alErase _ _ _ h

/-- Clearing the needAck flag does not make a packet an ack. -/
theorem isAckPacket_clear_needAck (p : packetToSend) :
    isAckPacket { p with needAck := false } = isAckPacket p := rfl

/-- The msgs_ack loop keeps the table free of ack payloads. -/
theorem processAcks_table_Q (ids : List Int) (t : List (Int × packetToSend))
    (hq : ∀ kv ∈ t, isAckPacket kv.2 = false) :
    ∀ kv ∈ processAcks ids t, isAckPacket kv.2 = false := by
  induction ids generalizing t with
  | nil => exact hq
  | cons i rest ih =>
    have hstep : ∀ kv ∈ ackOne t i, isAckPacket kv.2 = false := by
      unfold ackOne
      cases alLookup i t with
      | none => exact hq
      | some p =>
        have hupd : ∀ kv ∈ alUpdate i (fun q => { q with needAck := false }) t,
            isAckPacket kv.2 = false := by
          refine mem_alUpdate_forall (fun b => isAckPacket b = false) i _ t ?_ hq
          intro b hb
          rw [isAckPacket_clear_needAck]
          exact hb
        by_cases hr : p.resp = none
        · simp only [if_pos hr]
          exact fun kv h => hupd kv (mem_alErase _ _ _ h)
        · simp only [if_neg hr]
          exact hupd
    exact ih (ackOne t i) hstep

/-- A table free of ack payloads contributes no acks when its packets are
re-enqueued. -/
theorem filter_isAck_map_snd (t : List (Int × packetToSend))
    (hq : ∀ kv ∈ t, isAckPacket kv.2 = false) :
    (t.map Prod.snd).filter isAckPacket = [] := by
  induction t with
  | nil => rfl
  | cons kv rest ih =>
    have h₁ : isAckPacket kv.2 = false := hq kv (by simp)
    have h₂ := ih fun kv₂ hm => hq kv₂ (by simp [hm])
    simp [h₁, h₂]

/-- The shared final step of process: appending the conditional trailing
ack preserves the table property and extends the emitted-acks accounting
by the message id exactly when the seq no is odd. -/
theorem processTailStep (m s : Int) (st st₁ : MState) (ns₁ : List packetToSend)
    (inner : List Int)
    (hq₁ : ∀ kv ∈ st₁.msgsByID, isAckPacket kv.2 = false)
    (hqueue : st₁.sendQueue = st.sendQueue ++ ns₁)
    (hfil : ns₁.filter isAckPacket = inner.map mkAckPacket) :
    (∀ kv ∈ (if s % 2 = 1 then { st₁ with sendQueue := st₁.sendQueue ++ [mkAckPacket m] }
        else st₁).msgsByID, isAckPacket kv.2 = false) ∧
    ∃ ns, (if s % 2 = 1 then { st₁ with sendQueue := st₁.sendQueue ++ [mkAckPacket m] }
        else st₁).sendQueue = st.sendQueue ++ ns ∧
      ns.filter isAckPacket = (inner ++ if s % 2 = 1 then [m] else []).map mkAckPacket := by
  by_cases hodd : s % 2 = 1
  · simp only [if_pos hodd]
    refine ⟨hq₁, ns₁ ++ [mkAckPacket m], ?_, ?_⟩
    · rw [hqueue, List.append_assoc]
    · rw [List.filter_append, hfil, List.map_append]
      simp [isAckPacket, mkAckPacket, newPacket]
  · simp only [if_neg hodd]
    refine ⟨hq₁, ns₁, hqueue, ?_⟩
    simp [hfil]

mutual

/-- The dispatcher refines the spec ack policy: starting from a pending
table free of ack payloads, the packets newly enqueued by process are
exactly the spec acks when filtered to msgs_ack packets, in order; the
table stays free of ack payloads. -/
theorem processEmitsAcks (m s : Int) (d : TL) (mp : Bool) (st : MState)
    (hq : ∀ kv ∈ st.msgsByID, isAckPacket kv.2 = false) :
    (∀ kv ∈ (process m s d mp st).msgsByID, isAckPacket kv.2 = false) ∧
    ∃ ns, (process m s d mp st).sendQueue = st.sendQueue ++ ns ∧
      ns.filter isAckPacket = (specAckIds m s d).map mkAckPacket := by
  cases d with
  | msg_container items =>
    obtain ⟨hq₁, ns₁, e₁, f₁⟩ := processItemsEmitsAcks items st hq
    simp only [process, specAckIds]
    exact processTailStep m s st _ ns₁ (specAckIdsItems items) hq₁ e₁ f₁
  | bad_server_salt b₁ b₂ b₃ newSalt =>
    simp only [process, specAckIds]
    refine processTailStep m s st _ (st.msgsByID.map Prod.snd) [] ?_ rfl ?_
    · simp
    · simp [filter_isAck_map_snd st.msgsByID hq]
  | bad_msg_notification badId b₂ b₃ =>
    simp only [process, specAckIds]
    refine processTailStep m s st _ [] [] ?_ ?_ rfl
    · exact fun kv h => hq kv (clearPacketData_table_sub _ _ _ kv h)
    · rw [clearPacketData_sendQueue_eq]
      simp
  | msgs_state_info reqId info =>
    simp only [process, specAckIds]
    refine processTailStep m s st _ [] [] ?_ ?_ rfl
    · exact fun kv h => hq kv (clearPacketData_table_sub _ _ _ kv h)
    · rw [clearPacketData_sendQueue_eq]
      simp
  | new_session_created a b salt =>
    simp only [process, specAckIds]
    exact processTailStep m s st _ [] [] hq (by simp) rfl
  | ping pid =>
    simp only [process, specAckIds]
    exact processTailStep m s st _ [newPacket (TL.pong m pid) none] [] hq rfl
      (by simp [isAckPacket, newPacket])
  | pong a b =>
    simp only [process, specAckIds]
    exact processTailStep m s st st [] [] hq (by simp) rfl
  | msgs_ack ids =>
    simp only [process, specAckIds]
    exact processTailStep m s st _ [] [] (processAcks_table_Q ids st.msgsByID hq) (by simp) rfl
  | rpc_result reqId obj =>
    obtain ⟨hq₁, ns₁, e₁, f₁⟩ := processEmitsAcks m 0 obj false st hq
    simp only [process, specAckIds]
    refine processTailStep m s st _ ns₁ (specAckIds m 0 obj) ?_ ?_ f₁
    · exact fun kv h => hq₁ kv (clearPacketData_table_sub _ _ _ kv h)
    · rw [clearPacketData_sendQueue_eq, e₁]
  | nullObj =>
    simp only [process, specAckIds]
    refine processTailStep m s st _ [] [] ?_ ?_ rfl
    · split <;> exact hq
    · split <;> simp
  | other c =>
    simp only [process, specAckIds]
    refine processTailStep m s st _ [] [] ?_ ?_ rfl
    · split <;> exact hq
    · split <;> simp

/-- Container items emit exactly the spec acks of the items, in order. -/
theorem processItemsEmitsAcks (items : TLItems) (st : MState)
    (hq : ∀ kv ∈ st.msgsByID, isAckPacket kv.2 = false) :
    (∀ kv ∈ (processItems items st).msgsByID, isAckPacket kv.2 = false) ∧
    ∃ ns, (processItems items st).sendQueue = st.sendQueue ++ ns ∧
      ns.filter isAckPacket = (specAckIdsItems items).map mkAckPacket := by
  cases items with
  | nil =>
    exact ⟨hq, [], by simp [processItems], by simp [processItems, specAckIdsItems]⟩
  | cons mid sq sz d rest =>
    obtain ⟨hq₁, ns₁, e₁, f₁⟩ := processEmitsAcks mid sq d true st hq
    obtain ⟨hq₂, ns₂, e₂, f₂⟩ := processItemsEmitsAcks rest (process mid sq d true st) hq₁
    refine ⟨?_, ns₁ ++ ns₂, ?_, ?_⟩
    · simpa only [processItems] using hq₂
    · simp only [processItems]
      rw [e₂, e₁, List.append_assoc]
    · simp only [specAckIdsItems, List.map_append]
      rw [List.filter_append, f₁, f₂]

end

/-- For odd sequence numbers the spec ack list ends with the message own
id: the ack for a message is emitted after all nested processing. -/
theorem specAckIds_getLast (m s : Int) (d : TL) (h : s % 2 = 1) :
    (specAckIds m s d).getLast? = some m := by
  cases d <;> rw [specAckIds, if_pos h] <;>
    first
    | exact List.getLast?_concat _
    | simp

/-- C1: starting from a pending table without ack payloads (acks are
fire-and-forget), the msgs_ack packets newly enqueued by the dispatcher
are exactly one ack packet, holding exactly the msg id, per processed
message with odd seq no, in nesting order (container items recurse with
their own ids, the rpc_result inner object runs with seq no 0 and so
contributes no ack of its own, even seq no contributes no ack); the odd
inbound message own ack comes last, after all nested processing. -/
theorem process_odd_seqno_ack (msgId seqNo : Int) (d : TL) (mp : Bool) (st : MState)
    (hq : ∀ kv ∈ st.msgsByID, isAckPacket kv.2 = false) :
    ((process msgId seqNo d mp st).sendQueue.drop st.sendQueue.length).filter isAckPacket =
      (specAckIds msgId seqNo d).map mkAckPacket ∧
    (seqNo % 2 = 1 → (specAckIds msgId seqNo d).getLast? = some msgId) := by
  obtain ⟨hq₁, ns, e, f⟩ := processEmitsAcks msgId seqNo d mp st hq
  refine ⟨?_, fun hodd => specAckIds_getLast msgId seqNo d hodd⟩
  rw [e, List.drop_left]
  exact f

/-- C1 witness: the statement at the container of spec scenario 2, two
items with odd seq no around an empty pending table. -/
theorem process_odd_seqno_ack_witness :
    (∀ kv ∈ (⟨⟨2, [], [], 0, [], 0⟩, [], [], [], [], 0, [], false, true, []⟩ :
      MState).msgsByID, isAckPacket kv.2 = false) ∧
    List.filter isAckPacket
      ((process 5 1 (TL.msg_container (TLItems.cons 10 1 0 (TL.ping 1)
        (TLItems.cons 12 3 0 (TL.other 77) TLItems.nil))) true
        (⟨⟨2, [], [], 0, [], 0⟩, [], [], [], [], 0, [], false, true, []⟩ :
          MState)).sendQueue.drop
      (⟨⟨2, [], [], 0, [], 0⟩, [], [], [], [], 0, [], false, true, []⟩ :
        MState).sendQueue.length) =
      (specAckIds 5 1 (TL.msg_container (TLItems.cons 10 1 0 (TL.ping 1)
        (TLItems.cons 12 3 0 (TL.other 77) TLItems.nil)))).map mkAckPacket ∧
    ((1 : Int) % 2 = 1 → (specAckIds 5 1 (TL.msg_container (TLItems.cons 10 1 0 (TL.ping 1)
        (TLItems.cons 12 3 0 (TL.other 77) TLItems.nil)))).getLast? = some 5) :=
  ⟨by simp,
    (process_odd_seqno_ack 5 1 (TL.msg_container (TLItems.cons 10 1 0 (TL.ping 1)
      (TLItems.cons 12 3 0 (TL.other 77) TLItems.nil))) true
      ⟨⟨2, [], [], 0, [], 0⟩, [], [], [], [], 0, [], false, true, []⟩ (by simp)).1,
    (process_odd_seqno_ack 5 1 (TL.msg_container (TLItems.cons 10 1 0 (TL.ping 1)
      (TLItems.cons 12 3 0 (TL.other 77) TLItems.nil))) true
      ⟨⟨2, [], [], 0, [], 0⟩, [], [], [], [], 0, [], false, true, []⟩ (by simp)).2⟩

/-- C8: the decode-buffer error is sticky.  On a buffer whose error is
set, every read operation returns the zero value of its result type (0,
the empty byte or element list for nil slices, the absent big integer for
a nil pointer, false, the nil object) and returns the buffer state
entirely unchanged: the offset does not advance and the error stays. -/
theorem decode_err_sticky (st : DecodeBuf) (e : String) (h : st.err = some e) :
    st.Long = (0, st) ∧
    st.Int = (0, st) ∧
    st.UInt = (0, st) ∧
    st.Double = (0, st) ∧
    (∀ n, st.Bytes n = ([], st)) ∧
    st.StringBytes = ([], st) ∧
    st.String = ([], st) ∧
    st.BigInt = (none, st) ∧
    st.Bool = (false, st) ∧
    st.VectorInt = ([], st) ∧
    st.VectorLong = ([], st) ∧
    st.VectorString = ([], st) ∧
    (∀ gen gz fuel, DecodeBuf.Vector gen gz fuel st = ([], st)) ∧
    (∀ gen gz fuel, DecodeBuf.Object gen gz fuel st = (TL.nullObj, st)) := by
  have hLong : st.Long = (0, st) := by
    rw [DecodeBuf.Long, h]
  have hInt : st.Int = (0, st) := by
    rw [DecodeBuf.Int, h]
  have hUInt : st.UInt = (0, st) := by
    rw [DecodeBuf.UInt, h]
  have hSB : st.StringBytes = ([], st) := by
    rw [DecodeBuf.StringBytes, h]
  refine ⟨hLong, hInt, hUInt, by rw [DecodeBuf.Double, h],
    fun n => by rw [DecodeBuf.Bytes, h], hSB,
    by simp [DecodeBuf.String, hSB, h],
    by simp [DecodeBuf.BigInt, hSB, h],
    by simp [DecodeBuf.Bool, hUInt, h],
    by simp [DecodeBuf.VectorInt, hUInt, h],
    by simp [DecodeBuf.VectorLong, hUInt, h],
    by simp [DecodeBuf.VectorString, hUInt, h],
    fun gen gz fuel => by simp [DecodeBuf.Vector, hUInt, h],
    fun gen gz fuel => ?_⟩
  cases fuel with
  | zero => rw [DecodeBuf.Object]
  | succ fuel => simp [DecodeBuf.Object, hUInt, h]

/-- C8 witness: the statement at a concrete buffer with the error set. -/
theorem decode_err_sticky_witness :
    (⟨[7], 0, 1, some "DecodeLong"⟩ : DecodeBuf).err = some "DecodeLong" ∧
    ((⟨[7], 0, 1, some "DecodeLong"⟩ : DecodeBuf).Long =
      (0, ⟨[7], 0, 1, some "DecodeLong"⟩) ∧
    (⟨[7], 0, 1, some "DecodeLong"⟩ : DecodeBuf).Int =
      (0, ⟨[7], 0, 1, some "DecodeLong"⟩) ∧
    (⟨[7], 0, 1, some "DecodeLong"⟩ : DecodeBuf).UInt =
      (0, ⟨[7], 0, 1, some "DecodeLong"⟩) ∧
    (⟨[7], 0, 1, some "DecodeLong"⟩ : DecodeBuf).Double =
      (0, ⟨[7], 0, 1, some "DecodeLong"⟩) ∧
    (∀ n, (⟨[7], 0, 1, some "DecodeLong"⟩ : DecodeBuf).Bytes n =
      ([], ⟨[7], 0, 1, some "DecodeLong"⟩)) ∧
    (⟨[7], 0, 1, some "DecodeLong"⟩ : DecodeBuf).StringBytes =
      ([], ⟨[7], 0, 1, some "DecodeLong"⟩) ∧
    (⟨[7], 0, 1, some "DecodeLong"⟩ : DecodeBuf).String =
      ([], ⟨[7], 0, 1, some "DecodeLong"⟩) ∧
    (⟨[7], 0, 1, some "DecodeLong"⟩ : DecodeBuf).BigInt =
      (none, ⟨[7], 0, 1, some "DecodeLong"⟩) ∧
    (⟨[7], 0, 1, some "DecodeLong"⟩ : DecodeBuf).Bool =
      (false, ⟨[7], 0, 1, some "DecodeLong"⟩) ∧
    (⟨[7], 0, 1, some "DecodeLong"⟩ : DecodeBuf).VectorInt =
      ([], ⟨[7], 0, 1, some "DecodeLong"⟩) ∧
    (⟨[7], 0, 1, some "DecodeLong"⟩ : DecodeBuf).VectorLong =
      ([], ⟨[7], 0, 1, some "DecodeLong"⟩) ∧
    (⟨[7], 0, 1, some "DecodeLong"⟩ : DecodeBuf).VectorString =
      ([], ⟨[7], 0, 1, some "DecodeLong"⟩) ∧
    (∀ gen gz fuel, DecodeBuf.Vector gen gz fuel ⟨[7], 0, 1, some "DecodeLong"⟩ =
      ([], ⟨[7], 0, 1, some "DecodeLong"⟩)) ∧
    (∀ gen gz fuel, DecodeBuf.Object gen gz fuel ⟨[7], 0, 1, some "DecodeLong"⟩ =
      (TL.nullObj, ⟨[7], 0, 1, some "DecodeLong"⟩))) :=
  ⟨rfl, decode_err_sticky ⟨[7], 0, 1, some "DecodeLong"⟩ "DecodeLong" rfl⟩

/-- C10: BigInt either fails (error set, nil result) or returns the
non-negative big-endian unsigned reading of the decoded string bytes; the
prepended zero byte never changes the value and the result is never
negative. -/
theorem bigint_nonneg (buf : List Nat) :
    (((NewDecodeBuf buf).BigInt.1 = none ∧
      ((NewDecodeBuf buf).BigInt.2.err).isSome = true) ∨
    ((NewDecodeBuf buf).BigInt.1 =
        some ((beBytesToNat ((NewDecodeBuf buf).StringBytes.1) : Int)) ∧
      0 ≤ ((beBytesToNat ((NewDecodeBuf buf).StringBytes.1) : Int)) ∧
      beBytesToNat (0 :: (NewDecodeBuf buf).StringBytes.1) =
        beBytesToNat ((NewDecodeBuf buf).StringBytes.1))) := by
  have hzero : ∀ l : List Nat, beBytesToNat (0 :: l) = beBytesToNat l := by
    intro l
    simp [beBytesToNat, List.foldl_cons]
  rw [DecodeBuf.BigInt]
  cases hsb : (NewDecodeBuf buf).StringBytes with
  | mk b m₁ =>
    cases he : m₁.err with
    | none =>
      right
      simp [hsb, he, hzero]
    | some e =>
      left
      simp [hsb, he]

/-- getD through a drop. -/
theorem getD_drop (l : List Nat) (n i d : Nat) :
    (l.drop n).getD i d = l.getD (n + i) d := by
  simp [List.getD_eq_getElem?_getD, List.getElem?_drop]

/-- leBytes always yields the requested number of bytes. -/
theorem leBytes_length (k n : Nat) : (leBytes k n).length = k := by
  induction k generalizing n with
  | zero => rfl
  | succ k ih => simp [leBytes, ih]

/-- Little-endian encoding and decoding of a natural number. -/
theorem leBytesToNat_leBytes (k n : Nat) : leBytesToNat (leBytes k n) = n % 256 ^ k := by
  induction k generalizing n with
  | zero => simp [leBytes, leBytesToNat, Nat.mod_one]
  | succ k ih =>
    rw [leBytes, leBytesToNat, ih, pow_succ']
    exact (Nat.mod_mul).symm

/-- Reading back an i64 written as its unsigned 64-bit residue. -/
theorem int64OfNat_emod (v : Int) (h₁ : -(2 : Int) ^ 63 ≤ v) (h₂ : v < (2 : Int) ^ 63) :
    int64OfNat ((v % (2 : Int) ^ 64).toNat) = v := by
  have hpow : ((2 : Int) ^ 64) = 18446744073709551616 := by norm_num
  have hpow₂ : ((2 : Int) ^ 63) = 9223372036854775808 := by norm_num
  rw [hpow₂] at h₁ h₂
  unfold int64OfNat
  rw [hpow]
  split <;> omega

/-- Decoding Long at an offset where the buffer carries an encoded i64. -/
theorem Long_dec (v : Int) (rest buf : List Nat) (off : Nat)
    (hbuf : buf.drop off = encLong v ++ rest)
    (h₁ : -(2 : Int) ^ 63 ≤ v) (h₂ : v < (2 : Int) ^ 63) :
    DecodeBuf.Long ⟨buf, off, buf.length, none⟩ =
      (v, ⟨buf, off + 8, buf.length, none⟩) := by
  have hlen8 : (encLong v).length = 8 := by simp [encLong, leBytes_length]
  have hlenbuf : buf.length = off + (8 + rest.length) := by
    have hc := congrArg List.length hbuf
    rw [List.length_drop, List.length_append, hlen8] at hc
    omega
  have htake : (buf.drop off).take 8 = encLong v := by
    rw [hbuf, ← hlen8, List.take_left]
  have hval : leBytesToNat (encLong v) = (v % (2 : Int) ^ 64).toNat := by
    rw [encLong, leBytesToNat_leBytes]
    refine Nat.mod_eq_of_lt ?_
    have hlt : v % (2 : Int) ^ 64 < (2 : Int) ^ 64 := Int.emod_lt_of_pos v (by norm_num)
    have hpow : ((2 : Int) ^ 64) = 18446744073709551616 := by norm_num
    have hpow₂ : (256 : Nat) ^ 8 = 18446744073709551616 := by norm_num
    rw [hpow] at hlt
    rw [hpow₂]
    omega
  simp only [DecodeBuf.Long]
  rw [if_neg (by omega), htake, hval, int64OfNat_emod v h₁ h₂]

/-- Reassembling a length below 2 pow 24 from its three bytes. -/
theorem three_byte_len (n : Nat) (h : n < 2 ^ 24) :
    n % 256 + n / 256 % 256 * 256 + n / 65536 % 256 * 65536 = n := by
  have h₂ : n < 16777216 := by norm_num at h; exact h
  omega

/-- Decoding StringBytes at an offset where the buffer carries an encoded
string-bytes field recovers the payload and advances past the whole
field. -/
theorem StringBytes_dec (b rest buf : List Nat) (off : Nat)
    (hbuf : buf.drop off = encStringBytes b ++ rest)
    (hlen : b.length < 2 ^ 24) :
    DecodeBuf.StringBytes ⟨buf, off, buf.length, none⟩ =
      (b, ⟨buf, off + (encStringBytes b).length, buf.length, none⟩) := by
  have hdrop : ∀ k, buf.drop (off + k) = (encStringBytes b ++ rest).drop k := by
    intro k
    rw [← List.drop_drop, hbuf]
  have hgetD : ∀ i d, buf.getD (off + i) d = (encStringBytes b ++ rest).getD i d := by
    intro i d
    rw [← getD_drop buf off i d, hbuf]
  have hEpos : 0 < (encStringBytes b).length := by
    unfold encStringBytes
    split <;> simp
  have hbl : buf.length = off + ((encStringBytes b).length + rest.length) := by
    have hc := congrArg List.length hbuf
    rw [List.length_drop, List.length_append] at hc
    omega
  by_cases hsmall : b.length < 254
  · have hE : encStringBytes b =
        b.length :: (b ++ List.replicate ((4 - (b.length + 1) % 4) % 4) 0) := by
      simp [encStringBytes, hsmall]
    have hElen : (encStringBytes b).length =
        1 + (b.length + (4 - (b.length + 1) % 4) % 4) := by
      rw [hE]
      simp
      omega
    have hb0 : buf.getD off 0 = b.length := by
      have hg := hgetD 0 0
      rw [Nat.add_zero] at hg
      rw [hg, hE]
      rfl
    have hx : (buf.drop (off + 1)).take b.length = b := by
      rw [hdrop 1, hE]
      simp only [List.cons_append, List.drop_succ_cons, List.drop_zero, List.append_assoc]
      exact List.take_left b _
    simp only [DecodeBuf.StringBytes]
    rw [if_neg (by omega), hb0, if_neg (by omega)]
    simp only [DecodeBuf.stringBytesBody]
    rw [if_neg (by omega), hx, if_neg (by omega)]
    simp only [Prod.mk.injEq, DecodeBuf.mk.injEq, true_and, and_true]
    omega
  · have hE : encStringBytes b =
        254 :: b.length % 256 :: b.length / 256 % 256 :: b.length / 65536 % 256 ::
          (b ++ List.replicate ((4 - b.length % 4) % 4) 0) := by
      simp [encStringBytes, hsmall]
    have hElen : (encStringBytes b).length =
        4 + (b.length + (4 - b.length % 4) % 4) := by
      rw [hE]
      simp
      omega
    have hb0 : buf.getD off 0 = 254 := by
      have hg := hgetD 0 0
      rw [Nat.add_zero] at hg
      rw [hg, hE]
      rfl
    have hg1 : buf.getD (off + 1) 0 = b.length % 256 := by
      rw [hgetD 1 0, hE]
      rfl
    have hg2 : buf.getD (off + 2) 0 = b.length / 256 % 256 := by
      rw [hgetD 2 0, hE]
      rfl
    have hg3 : buf.getD (off + 3) 0 = b.length / 65536 % 256 := by
      rw [hgetD 3 0, hE]
      rfl
    have hsz : buf.getD (off + 1) 0 + buf.getD (off + 2) 0 * 256 +
        buf.getD (off + 3) 0 * 65536 = b.length := by
      rw [hg1, hg2, hg3]
      exact three_byte_len b.length hlen
    have hx : (buf.drop (off + 4)).take b.length = b := by
      rw [hdrop 4, hE]
      simp only [List.cons_append, List.drop_succ_cons, List.drop_zero, List.append_assoc]
      exact List.take_left b _
    simp only [DecodeBuf.StringBytes]
    rw [if_neg (by omega), hb0, if_pos rfl, if_neg (by omega), hsz]
    simp only [DecodeBuf.stringBytesBody]
    rw [if_neg (by omega), hx, if_neg (by omega)]
    simp only [Prod.mk.injEq, DecodeBuf.mk.injEq, true_and, and_true]
    omega

/-- Decoding String at an encoded string field. -/
theorem String_dec (b rest buf : List Nat) (off : Nat)
    (hbuf : buf.drop off = encStringBytes b ++ rest)
    (hlen : b.length < 2 ^ 24) :
    DecodeBuf.String ⟨buf, off, buf.length, none⟩ =
      (b, ⟨buf, off + (encStringBytes b).length, buf.length, none⟩) := by
  rw [DecodeBuf.String, StringBytes_dec b rest buf off hbuf hlen]

/-- An encoded string field is never empty. -/
theorem encStringBytes_pos (b : List Nat) : 0 < (encStringBytes b).length := by
  unfold encStringBytes
  split <;> simp

/-- C6 amended, round-trip direction: for every session whose serialized
form fits the 4096-byte read buffer of Load (with an i64 salt and field
lengths below the three-byte length limit), Load after Save restores the
auth key, auth key hash, server salt and address. -/
theorem save_load_roundtrip (sess : SessionInfo)
    (hak : sess.authKey.length < 2 ^ 24)
    (hakh : sess.authKeyHash.length < 2 ^ 24)
    (haddr : sess.addr.length < 2 ^ 24)
    (h₁ : -(2 : Int) ^ 63 ≤ sess.serverSalt) (h₂ : sess.serverSalt < (2 : Int) ^ 63)
    (hsize : (SessFileStore_Save sess).length ≤ 4096) :
    SessFileStore_Load (SessFileStore_Save sess) =
      Except.ok (sess.authKey, sess.authKeyHash, sess.serverSalt, sess.addr) := by
  have hCelen : (encLong sess.serverSalt).length = 8 := by
    simp [encLong, leBytes_length]
  have hFpos : 0 < (SessFileStore_Save sess).length := by
    have := encStringBytes_pos sess.authKey
    simp only [SessFileStore_Save, List.length_append]
    omega
  have hne : ¬ (SessFileStore_Save sess).isEmpty = true := by
    rw [List.isEmpty_iff]
    intro h0
    rw [h0] at hFpos
    simp at hFpos
  have hbdef : (SessFileStore_Save sess ++ List.replicate 4096 0).take 4096 =
      SessFileStore_Save sess ++
        List.replicate (4096 - (SessFileStore_Save sess).length) 0 := by
    rw [List.take_append_eq_append_take, List.take_of_length_le hsize, List.take_replicate]
    have hmin : min (4096 - (SessFileStore_Save sess).length) 4096 =
        4096 - (SessFileStore_Save sess).length := Nat.min_eq_left (by omega)
    rw [hmin]
  have hassoc : SessFileStore_Save sess ++
      List.replicate (4096 - (SessFileStore_Save sess).length) 0 =
      encStringBytes sess.authKey ++ (encStringBytes sess.authKeyHash ++
        (encLong sess.serverSalt ++ (encStringBytes sess.addr ++
          List.replicate (4096 - (SessFileStore_Save sess).length) 0))) := by
    simp [SessFileStore_Save, encString, List.append_assoc]
  set BUF := SessFileStore_Save sess ++
    List.replicate (4096 - (SessFileStore_Save sess).length) 0 with hBUF
  have hd0 : BUF.drop 0 = encStringBytes sess.authKey ++
      (encStringBytes sess.authKeyHash ++ (encLong sess.serverSalt ++
        (encStringBytes sess.addr ++
          List.replicate (4096 - (SessFileStore_Save sess).length) 0))) := by
    rw [List.drop_zero]
    exact hassoc
  have hd1 : BUF.drop (encStringBytes sess.authKey).length =
      encStringBytes sess.authKeyHash ++ (encLong sess.serverSalt ++
        (encStringBytes sess.addr ++
          List.replicate (4096 - (SessFileStore_Save sess).length) 0)) := by
    rw [hassoc, List.drop_left]
  have hd2 : BUF.drop ((encStringBytes sess.authKey).length +
      (encStringBytes sess.authKeyHash).length) =
      encLong sess.serverSalt ++ (encStringBytes sess.addr ++
        List.replicate (4096 - (SessFileStore_Save sess).length) 0) := by
    rw [← List.drop_drop, hd1, List.drop_left]
  have hd3 : BUF.drop ((encStringBytes sess.authKey).length +
      (encStringBytes sess.authKeyHash).length + 8) =
      encStringBytes sess.addr ++
        List.replicate (4096 - (SessFileStore_Save sess).length) 0 := by
    rw [← List.drop_drop, hd2, ← hCelen, List.drop_left]
  have hc1 := StringBytes_dec sess.authKey
    (encStringBytes sess.authKeyHash ++ (encLong sess.serverSalt ++
      (encStringBytes sess.addr ++
        List.replicate (4096 - (SessFileStore_Save sess).length) 0)))
    BUF 0 hd0 hak
  have hc2 := StringBytes_dec sess.authKeyHash
    (encLong sess.serverSalt ++ (encStringBytes sess.addr ++
      List.replicate (4096 - (SessFileStore_Save sess).length) 0))
    BUF (0 + (encStringBytes sess.authKey).length)
    (by rw [Nat.zero_add]; exact hd1) hakh
  have hc3 := Long_dec sess.serverSalt
    (encStringBytes sess.addr ++
      List.replicate (4096 - (SessFileStore_Save sess).length) 0)
    BUF (0 + (encStringBytes sess.authKey).length + (encStringBytes sess.authKeyHash).length)
    (by rw [Nat.zero_add]; exact hd2) h₁ h₂
  have hc4 := String_dec sess.addr
    (List.replicate (4096 - (SessFileStore_Save sess).length) 0)
    BUF (0 + (encStringBytes sess.authKey).length + (encStringBytes sess.authKeyHash).length + 8)
    (by rw [Nat.zero_add]; exact hd3) haddr
  rw [SessFileStore_Load, if_neg hne, hbdef]
  simp only [NewDecodeBuf, ← hBUF, hc1, hc2, hc3, hc4]

/-- C6 witness: the amended round trip at a concrete session record. -/
theorem save_load_roundtrip_witness :
    SessFileStore_Load (SessFileStore_Save ⟨0, [1, 2, 3], [4], -5, [104, 105], 0⟩) =
      Except.ok ([1, 2, 3], [4], -5, [104, 105]) :=
  save_load_roundtrip ⟨0, [1, 2, 3], [4], -5, [104, 105], 0⟩
    (by norm_num) (by norm_num) (by norm_num) (by norm_num) (by norm_num) (by decide)

/-- C6 counterexample: the server salt field on disk is not framed with
the string-bytes framing.  At a concrete session (empty keys, salt 1,
empty address) Save writes the salt as 8 raw little-endian bytes, while
the framing the claim asserts would wrap those 8 bytes in a length byte
plus padding; the two byte sequences differ. -/
theorem save_salt_not_string_framed :
    SessFileStore_Save ⟨0, [], [], 1, [], 0⟩ ≠ claimSaveBytes ⟨0, [], [], 1, [], 0⟩ ∧
    SessFileStore_Save ⟨0, [], [], 1, [], 0⟩ =
      [0, 0, 0, 0] ++ [0, 0, 0, 0] ++ [1, 0, 0, 0, 0, 0, 0, 0] ++ [0, 0, 0, 0] ∧
    claimSaveBytes ⟨0, [], [], 1, [], 0⟩ =
      [0, 0, 0, 0] ++ [0, 0, 0, 0] ++ [8, 1, 0, 0, 0, 0, 0, 0, 0, 0, 0, 0] ++ [0, 0, 0, 0] := by
  refine ⟨by decide, by decide, by decide⟩
